import Mathlib

/-!
Verification of the rhythm durable-execution engine.

This file gives a shallow embedding of the engine's core operations and
proves properties of them:

* the workflow replay context (`python/currant/context.py`):
  history cursor, activity replay, signal waits, version probes, and the
  module-level context API;
* the function registry (`python/currant/registry.py`);
* the store operations performed by the worker and the client
  (`workflows/worker.py`, `workflows/client.py`): claiming, completion,
  failure handling with retries, dead-worker recovery, signal delivery
  and cancellation.

Database tables are embedded as lists of rows; each SQL UPDATE becomes a
map over the table guarded by the statement's WHERE condition.  JSON
payloads, argument lists and results are kept as their serialised string
form, which is how the source stores them.  Timestamps are integers
(seconds); `NOW()` becomes an explicit `now` parameter.
-/

namespace Rhythm

/-- Execution kinds as used by the source (`type` column; the `workflows`
package inserts rows with types `job`, `activity` and `workflow`, the
`currant` binding uses `task` and `workflow`). -/
inductive ExecutionType where
  | task
  | workflow
  | activity
  | job
deriving DecidableEq

/-- Status of an execution row (`models.ExecutionStatus`). -/
inductive ExecutionStatus where
  | pending
  | running
  | suspended
  | completed
  | failed
deriving DecidableEq

/-- Status of a worker heartbeat row (`models.WorkerStatus`). -/
inductive WorkerStatus where
  | running
  | stopped
deriving DecidableEq

/-- Structured error record built by the worker's failure path: in the
source a dict with keys `message`, `type` and `traceback` (the traceback
key is absent from the cancellation error written by
`client.cancel_execution`, hence the `Option`). -/
structure ErrorData where
  message : String
  type : String
  traceback : Option String
deriving DecidableEq

/-- History events, the tagged dicts appended to a workflow checkpoint's
`history` list: `{"type": "activity", "name", "result",
"activity_execution_id"}` appended by `Worker._resume_parent_workflow`,
`{"type": "signal", "signal_name", "payload", "signal_id"}` appended by
`client.send_signal`, and `{"type": "version", "change_id", "version"}`
appended by `WorkflowExecutionContext.get_version`. -/
inductive HistoryEvent where
  | activity (name : String) (result : String) (activity_execution_id : String)
  | signal (signal_name : String) (payload : String) (signal_id : String)
  | version (change_id : String) (version : Int)
deriving DecidableEq

/-- The per-activity config dict carried on an activity proxy; the
suspend handler reads `priority`, `retries` and `timeout` from it with
`.get` defaults. -/
structure ActivityConfig where
  priority : Option Int
  retries : Option Nat
  timeout : Option Int
deriving DecidableEq

/-- Commands recorded by the context while a workflow step runs and
carried by `WorkflowSuspendException`: activity invocations and signal
waits (`context.py`, `execute_activity` / `wait_for_signal`). -/
inductive Command where
  | activity (activity_execution_id : String) (name : String)
      (args : String) (kwargs : String) (config : ActivityConfig)
  | wait_signal (signal_name : String) (timeout : Option Int)
deriving DecidableEq

/-- A workflow checkpoint as persisted by `Worker._handle_workflow_suspend`:
`{"history": ..., "pending_commands": ...}`. -/
structure Checkpoint where
  history : List HistoryEvent
  pending_commands : List Command
deriving DecidableEq

/-- The empty checkpoint, standing for Python's `{}` default when the
`checkpoint` column is NULL. -/
def Checkpoint.empty : Checkpoint := ⟨[], []⟩

/-- A row of the `executions` table (`models.Execution`). -/
structure Execution where
  id : String
  type : ExecutionType
  function_name : String
  queue : String
  status : ExecutionStatus
  priority : Int
  args : String
  kwargs : String
  result : Option String
  error : Option ErrorData
  attempt : Nat
  max_retries : Nat
  parent_workflow_id : Option String
  created_at : Int
  claimed_at : Option Int
  completed_at : Option Int
  timeout_seconds : Option Int
  worker_id : Option String
  checkpoint : Option Checkpoint
deriving DecidableEq

/-- A row of the `workflow_signals` table (`client.send_signal` insert). -/
structure SignalRow where
  id : String
  workflow_id : String
  signal_name : String
  payload : String
  consumed : Bool
deriving DecidableEq

/-- A row of the `worker_heartbeats` table (`models.WorkerHeartbeat`). -/
structure WorkerHeartbeat where
  worker_id : String
  last_heartbeat : Int
  queues : List String
  status : WorkerStatus
deriving DecidableEq

/-- The durable state: the three tables the claims touch. -/
structure Store where
  executions : List Execution
  workflow_signals : List SignalRow
  worker_heartbeats : List WorkerHeartbeat
deriving DecidableEq

/-! ## Workflow execution context (`python/currant/context.py`) -/

/-- In-memory replay state of one workflow step
(`context.WorkflowExecutionContext.__init__`): the history restored from
the checkpoint, a cursor into it, the `is_replaying` flag (true iff the
restored history is non-empty) and the commands recorded so far. -/
structure WorkflowExecutionContext where
  execution_id : String
  history : List HistoryEvent
  current_step_index : Nat
  is_replaying : Bool
  new_commands : List Command
deriving DecidableEq

/-- `WorkflowExecutionContext.__init__(execution_id, checkpoint)`. -/
def WorkflowExecutionContext.init (execution_id : String)
    (checkpoint : Option Checkpoint) : WorkflowExecutionContext :=
  let history := (checkpoint.getD Checkpoint.empty).history
  { execution_id := execution_id
    history := history
    current_step_index := 0
    is_replaying := history.length > 0
    new_commands := [] }

/-- `get_next_history_event`: the event under the cursor (advancing it),
or `none` once the cursor has run past the recorded history. -/
def getNextHistoryEvent (ctx : WorkflowExecutionContext) :
    Option HistoryEvent × WorkflowExecutionContext :=
  match ctx.history[ctx.current_step_index]? with
  | some event => (some event, { ctx with current_step_index := ctx.current_step_index + 1 })
  | none => (none, ctx)

/-- Outcome of `execute_activity`: a replayed cached result, a
`WorkflowSuspendException` carrying the recorded commands, or an
`AssertionError` from a history mismatch.  Each constructor carries the
context as it stands when control leaves the method. -/
inductive ActivityOutcome where
  | replayed (ctx : WorkflowExecutionContext) (result : String)
  | suspend (ctx : WorkflowExecutionContext) (commands : List Command)
  | mismatch (ctx : WorkflowExecutionContext) (message : String)
deriving DecidableEq

/-- `WorkflowExecutionContext.execute_activity`.  During replay the event
under the cursor must be an `activity` event for the same function name,
else an assertion fails; live, the activity command is recorded and the
workflow suspends.  `fresh_id` stands for the generated
`activity_execution_id`. -/
def executeActivity (ctx : WorkflowExecutionContext) (function_name : String)
    (args kwargs : String) (config : ActivityConfig) (fresh_id : String) :
    ActivityOutcome :=
  match getNextHistoryEvent ctx with
  | (some event, ctx') =>
    match event with
    | .activity name result _ =>
      if name = function_name then .replayed ctx' result
      else .mismatch ctx'
        ("History mismatch: expected " ++ function_name ++ ", got " ++ name)
    | _ => .mismatch ctx' "History mismatch: expected activity"
  | (none, ctx') =>
    let ctx'' := { ctx' with
      is_replaying := false
      new_commands := ctx'.new_commands ++
        [.activity fresh_id function_name args kwargs config] }
    .suspend ctx'' ctx''.new_commands

/-- Outcome of `wait_for_signal` on the context: replayed payload,
suspension, or history mismatch. -/
inductive SignalOutcome where
  | replayed (ctx : WorkflowExecutionContext) (payload : String)
  | suspend (ctx : WorkflowExecutionContext) (commands : List Command)
  | mismatch (ctx : WorkflowExecutionContext) (message : String)
deriving DecidableEq

/-- `WorkflowExecutionContext.wait_for_signal`. -/
def waitForSignal (ctx : WorkflowExecutionContext) (signal_name : String)
    (timeout : Option Int) : SignalOutcome :=
  match getNextHistoryEvent ctx with
  | (some event, ctx') =>
    match event with
    | .signal name payload _ =>
      if name = signal_name then .replayed ctx' payload
      else .mismatch ctx'
        ("History mismatch: expected signal " ++ signal_name ++ ", got " ++ name)
    | _ => .mismatch ctx' "History mismatch: expected signal"
  | (none, ctx') =>
    let ctx'' := { ctx' with
      is_replaying := false
      new_commands := ctx'.new_commands ++ [.wait_signal signal_name timeout] }
    .suspend ctx'' ctx''.new_commands

/-- Outcome of `get_version`: a version value (version probes never
suspend), or a history mismatch. -/
inductive VersionOutcome where
  | ok (ctx : WorkflowExecutionContext) (version : Int)
  | mismatch (ctx : WorkflowExecutionContext) (message : String)
deriving DecidableEq

/-- `WorkflowExecutionContext.get_version`.  Live, it records
`version{change_id, max_version}` in the history immediately and returns
`max_version`; on replay it returns the recorded value after checking the
change id. -/
def getVersion (ctx : WorkflowExecutionContext) (change_id : String)
    (min_version max_version : Int) : VersionOutcome :=
  match getNextHistoryEvent ctx with
  | (some event, ctx') =>
    match event with
    | .version cid v =>
      if cid = change_id then .ok ctx' v
      else .mismatch ctx'
        ("History mismatch: expected change_id " ++ change_id ++ ", got " ++ cid)
    | _ => .mismatch ctx' "History mismatch: expected version"
  | (none, ctx') =>
    .ok { ctx' with
      history := ctx'.history ++ [.version change_id max_version]
      current_step_index := ctx'.current_step_index + 1 } max_version

/-! ## Module-level context API (`context.py`, public functions)

The source keeps the current context in a `ContextVar`; here it is the
explicit `Option WorkflowExecutionContext` argument, returned alongside
the result so that state changes are visible. -/

/-- Result of a public context API call: either the `RuntimeError` the
function raises outside a workflow, or its normal result. -/
inductive ApiCall (α : Type) where
  | runtimeError (message : String)
  | result (r : α)
deriving DecidableEq

/-- Module-level `wait_for_signal(signal_name, timeout)`. -/
def waitForSignalApi (cur : Option WorkflowExecutionContext)
    (signal_name : String) (timeout : Option Int) :
    Option WorkflowExecutionContext × ApiCall SignalOutcome :=
  match cur with
  | none => (none, .runtimeError "wait_for_signal() can only be called from within a workflow")
  | some ctx =>
    match waitForSignal ctx signal_name timeout with
    | .replayed ctx' p => (some ctx', .result (.replayed ctx' p))
    | .suspend ctx' cmds => (some ctx', .result (.suspend ctx' cmds))
    | .mismatch ctx' m => (some ctx', .result (.mismatch ctx' m))

/-- Module-level `get_version(change_id, min_version, max_version)`. -/
def getVersionApi (cur : Option WorkflowExecutionContext)
    (change_id : String) (min_version max_version : Int) :
    Option WorkflowExecutionContext × ApiCall VersionOutcome :=
  match cur with
  | none => (none, .runtimeError "get_version() can only be called from within a workflow")
  | some ctx =>
    match getVersion ctx change_id min_version max_version with
    | .ok ctx' v => (some ctx', .result (.ok ctx' v))
    | .mismatch ctx' m => (some ctx', .result (.mismatch ctx' m))

/-- Module-level `is_replaying()`. -/
def isReplayingApi (cur : Option WorkflowExecutionContext) :
    Option WorkflowExecutionContext × ApiCall Bool :=
  match cur with
  | none => (none, .runtimeError "is_replaying() can only be called from within a workflow")
  | some ctx => (some ctx, .result ctx.is_replaying)

/-! ## Function registry (`python/currant/registry.py`) -/

/-- `registry.get_function(name)`: lookup in the process-wide registry,
modelled by the list of registered names (the callables themselves are
opaque; the result is the registered name).  A missing name raises
`ValueError` with a message naming the function (the source wraps the
name in single quotes). -/
def get_function (registry : List String) (name : String) : Except String String :=
  if name ∈ registry then .ok name
  else .error ("Function " ++ name ++ " not found in registry. Did you import it?")

/-! ## Worker store operations (`workflows/worker.py`) -/

/-- Per-row effect of the claim UPDATE (`Worker._claim_execution`):
`status = 'running', worker_id = $1, claimed_at = NOW()`. -/
def claimMark (wid : String) (now : Int) (r : Execution) : Execution :=
  { r with status := .running, worker_id := some wid, claimed_at := some now }

/-- Dispatch order of the claim's inner SELECT:
`ORDER BY priority DESC, created_at ASC`. -/
def dispatchLE (a b : Execution) : Prop :=
  b.priority < a.priority ∨ (a.priority = b.priority ∧ a.created_at ≤ b.created_at)

instance : DecidableRel dispatchLE := fun a b => by
  unfold dispatchLE; infer_instance

instance : IsTotal Execution dispatchLE := by
  constructor
  intro a b
  rcases lt_trichotomy a.priority b.priority with h | h | h
  · exact Or.inr (Or.inl h)
  · rcases le_total a.created_at b.created_at with h' | h'
    · exact Or.inl (Or.inr ⟨h, h'⟩)
    · exact Or.inr (Or.inr ⟨h.symm, h'⟩)
  · exact Or.inl (Or.inl h)

instance : IsTrans Execution dispatchLE := by
  constructor
  intro a b c hab hbc
  rcases hab with h1 | ⟨h1, h1'⟩ <;> rcases hbc with h2 | ⟨h2, h2'⟩
  · exact Or.inl (h2.trans h1)
  · exact Or.inl (h2 ▸ h1)
  · exact Or.inl (h1 ▸ h2)
  · exact Or.inr ⟨h1.trans h2, h1'.trans h2'⟩

/-- `Worker._claim_execution`, generalised over the SELECT's LIMIT (the
source issues `LIMIT 1`; see `claimExecution`): rows with
`status = 'pending'` and `queue = ANY(queues)` are ordered by
`(priority DESC, created_at ASC)`, the first `limit` of them are marked
running for the worker, and the claimed rows are returned
(`RETURNING *`).  Returns the claimed batch and the updated table; an
empty batch when nothing is claimable. -/
def claimBatch (db : List Execution) (queues : List String) (wid : String)
    (now : Int) (limit : Nat) : List Execution × List Execution :=
  let eligible := db.filter (fun e => decide (e.status = .pending ∧ e.queue ∈ queues))
  let chosen := (eligible.insertionSort dispatchLE).take limit
  let chosenIds : List String := chosen.map (·.id)
  (chosen.map (claimMark wid now),
   db.map (fun e => if e.id ∈ chosenIds then claimMark wid now e else e))

/-- `Worker._claim_execution` as written in the source: `LIMIT 1`. -/
def claimExecution (db : List Execution) (queues : List String) (wid : String)
    (now : Int) : List Execution × List Execution :=
  claimBatch db queues wid now 1

/-- Per-row effect of the completion UPDATE (`Worker._complete_execution`):
`status = 'completed', result = $2, completed_at = NOW(), worker_id = NULL`.
The statement carries no guard on the row's current status. -/
def completeRow (result : String) (now : Int) (r : Execution) : Execution :=
  { r with status := .completed, result := some result,
           completed_at := some now, worker_id := none }

/-- `Worker._resume_parent_workflow`: fetch the parent's checkpoint (a
missing parent only logs), append a `task_result`-style `activity` event
with the child's function name, result and id, and set the parent back to
`pending` with the updated checkpoint. -/
def resumeParentWorkflow (db : List Execution) (activity_execution : Execution)
    (result : String) (workflow_id : String) : List Execution :=
  match db.find? (fun w => decide (w.id = workflow_id)) with
  | none => db
  | some w =>
    let checkpoint := w.checkpoint.getD Checkpoint.empty
    let history := checkpoint.history ++
      [.activity activity_execution.function_name result activity_execution.id]
    let checkpoint' := { checkpoint with history := history }
    db.map (fun r =>
      if r.id = workflow_id then
        { r with status := .pending, checkpoint := some checkpoint' }
      else r)

/-- `Worker._complete_execution`: the unconditional completion UPDATE,
then — when the finished execution has a parent workflow — the resume
hand-off in the same transaction. -/
def completeExecution (db : List Execution) (execution : Execution)
    (result : String) (now : Int) : List Execution :=
  let db' := db.map (fun r => if r.id = execution.id then completeRow result now r else r)
  match execution.parent_workflow_id with
  | some wid => resumeParentWorkflow db' execution result wid
  | none => db'

/-- `utils.calculate_retry_delay(attempt)`: `min(2.0 * 2**attempt, 60.0)`
(exact in integers for every attempt). -/
def calculate_retry_delay (attempt : Nat) : Int :=
  min (2 * 2 ^ attempt) 60

/-- `Worker._handle_execution_failure`: the in-memory attempt counter is
incremented first; while it stays below `max_retries` the row is returned
to `pending` with the new attempt, the error, and the claim cleared (a
retry delay is computed from `calculate_retry_delay` but only logged — the
UPDATE carries no deferral), otherwise the row is marked `failed` with the
error and `completed_at` (the final UPDATE does not write the incremented
attempt). -/
def handleExecutionFailure (db : List Execution) (execution : Execution)
    (err : ErrorData) (now : Int) : List Execution :=
  let attempt := execution.attempt + 1
  if attempt < execution.max_retries then
    db.map (fun r =>
      if r.id = execution.id then
        { r with status := .pending, attempt := attempt, error := some err,
                 worker_id := none, claimed_at := none }
      else r)
  else
    db.map (fun r =>
      if r.id = execution.id then
        { r with status := .failed, error := some err,
                 completed_at := some now, worker_id := none }
      else r)

/-- The effect of `Worker._handle_execution_failure` on the failed row
itself, for the worker's own freshly claimed copy (the in-memory
`execution` and the stored row agree after a claim).  Justified against
the table-level operation by `handleExecutionFailure_singleton`. -/
def rowFail (r : Execution) (err : ErrorData) (now : Int) : Execution :=
  let attempt := r.attempt + 1
  if attempt < r.max_retries then
    { r with status := .pending, attempt := attempt, error := some err,
             worker_id := none, claimed_at := none }
  else
    { r with status := .failed, error := some err,
             completed_at := some now, worker_id := none }

theorem handleExecutionFailure_singleton (r : Execution) (err : ErrorData) (now : Int) :
    handleExecutionFailure [r] r err now = [rowFail r err now] := by
  unfold handleExecutionFailure rowFail
  by_cases h : r.attempt + 1 < r.max_retries <;> simp [h]

/-- One failing worker round on a single execution row: the row is
claimed (`Worker._claim_execution`'s per-row UPDATE effect) and its
execution raises, so the worker runs `_handle_execution_failure` on the
claimed copy. -/
def retryRound (r : Execution) (wid : String) (claim_time fail_time : Int)
    (err : ErrorData) : Execution :=
  rowFail (claimMark wid claim_time r) err fail_time

/-- `Worker._recover_dead_worker_executions`: the worker ids whose
heartbeat row is `running` with `last_heartbeat` older than the timeout
threshold. -/
def deadWorkerIds (heartbeats : List WorkerHeartbeat) (now heartbeat_timeout : Int) :
    List String :=
  (heartbeats.filter (fun w =>
    decide (w.status = .running ∧ w.last_heartbeat < now - heartbeat_timeout))).map
    (·.worker_id)

/-- Per-row effect of the recovery UPDATE on a recovered execution:
`status = 'pending', worker_id = NULL, claimed_at = NULL`. -/
def recoverRow (e : Execution) : Execution :=
  { e with status := .pending, worker_id := none, claimed_at := none }

/-- `worker_id = ANY(dead)` over the nullable `worker_id` column. -/
def claimedByOneOf (dead : List String) (worker_id : Option String) : Prop :=
  match worker_id with
  | some wid => wid ∈ dead
  | none => False

instance (dead : List String) (wid : Option String) :
    Decidable (claimedByOneOf dead wid) := by
  unfold claimedByOneOf
  match wid with
  | some w => infer_instance
  | none => infer_instance

/-- `Worker._recover_dead_worker_executions`: find dead workers (early
return when there are none), mark their heartbeats `stopped`, and reset
their executions with `status IN ('running', 'suspended')` to `pending`
with the claim cleared. -/
def recoverDeadWorkerExecutions (st : Store) (now heartbeat_timeout : Int) : Store :=
  let dead := deadWorkerIds st.worker_heartbeats now heartbeat_timeout
  if dead.isEmpty then st
  else
    { st with
      worker_heartbeats := st.worker_heartbeats.map (fun w =>
        if w.worker_id ∈ dead then { w with status := .stopped } else w)
      executions := st.executions.map (fun e =>
        if claimedByOneOf dead e.worker_id ∧
            (e.status = .running ∨ e.status = .suspended) then
          recoverRow e
        else e) }

/-- `Worker._handle_workflow_suspend`: in one transaction, insert a
pending `activity` child row for every activity command (inheriting the
workflow's queue, with config defaults `priority 5`,
`retries default_retries`, `timeout` as given), do nothing for
`wait_signal` commands, and set the workflow row to `suspended` with the
new checkpoint `{history, pending_commands}` and the claim cleared. -/
def handleWorkflowSuspend (st : Store) (execution : Execution)
    (ctx : WorkflowExecutionContext) (commands : List Command)
    (default_retries : Nat) (now : Int) : Store :=
  let newRows : List Execution := commands.filterMap (fun cmd =>
    match cmd with
    | .activity aid name args kwargs config =>
      some { id := aid, type := .activity, function_name := name,
             queue := execution.queue, status := .pending,
             priority := config.priority.getD 5, args := args, kwargs := kwargs,
             result := none, error := none, attempt := 0,
             max_retries := config.retries.getD default_retries,
             parent_workflow_id := some execution.id, created_at := now,
             claimed_at := none, completed_at := none,
             timeout_seconds := config.timeout, worker_id := none,
             checkpoint := none }
    | .wait_signal _ _ => none)
  let new_checkpoint : Checkpoint := ⟨ctx.history, commands⟩
  { st with executions :=
      (st.executions ++ newRows).map (fun e =>
        if e.id = execution.id then
          { e with status := .suspended, checkpoint := some new_checkpoint,
                   worker_id := none }
        else e) }

/-! ## Client operations (`workflows/client.py`) -/

/-- Does a pending command wait for this signal?  The loop over
`checkpoint["pending_commands"]` in `client.send_signal`. -/
def commandWaitsForSignal (signal_name : String) (cmd : Command) : Bool :=
  match cmd with
  | .wait_signal n _ => n = signal_name
  | _ => false

/-- `client.send_signal(workflow_id, signal_name, payload)`: insert the
signal unconsumed; fetch the workflow row; when the workflow is
`suspended` with a matching `wait_signal` among its pending commands,
append a `signal` history event, clear the pending commands, set the
workflow back to `pending` and mark the new signal consumed — all in one
transaction.  Otherwise the signal merely remains stored.  `signal_id`
stands for the generated id. -/
def sendSignal (st : Store) (workflow_id signal_name payload signal_id : String) :
    Store :=
  let sig : SignalRow := ⟨signal_id, workflow_id, signal_name, payload, false⟩
  let st1 := { st with workflow_signals := st.workflow_signals ++ [sig] }
  match st1.executions.find? (fun e =>
      decide (e.id = workflow_id ∧ e.type = .workflow)) with
  | none => st1
  | some workflow =>
    let checkpoint := workflow.checkpoint.getD Checkpoint.empty
    let signal_found := checkpoint.pending_commands.any (commandWaitsForSignal signal_name)
    if signal_found ∧ workflow.status = .suspended then
      let history := checkpoint.history ++ [.signal signal_name payload signal_id]
      let checkpoint' : Checkpoint := ⟨history, []⟩
      { st1 with
        executions := st1.executions.map (fun e =>
          if e.id = workflow_id then
            { e with status := .pending, checkpoint := some checkpoint' }
          else e)
        workflow_signals := st1.workflow_signals.map (fun s =>
          if s.id = signal_id then { s with consumed := true } else s) }
    else st1

/-- The cancellation error written by `client.cancel_execution`:
`{"message": "Execution cancelled", "type": "CancellationError"}`. -/
def cancellationError : ErrorData :=
  ⟨"Execution cancelled", "CancellationError", none⟩

/-- The WHERE clause of the cancellation UPDATE:
`id = $1 AND status IN ('pending', 'suspended')`. -/
def cancellable (execution_id : String) (r : Execution) : Prop :=
  r.id = execution_id ∧ (r.status = .pending ∨ r.status = .suspended)

instance (execution_id : String) (r : Execution) : Decidable (cancellable execution_id r) := by
  unfold cancellable; infer_instance

/-- `client.cancel_execution(execution_id)`: fail the row with the
cancellation error and `completed_at = NOW()` when it is `pending` or
`suspended`; the returned Bool is whether any row was updated. -/
def cancelExecution (db : List Execution) (execution_id : String) (now : Int) :
    List Execution × Bool :=
  (db.map (fun r =>
      if cancellable execution_id r then
        { r with status := .failed, error := some cancellationError,
                 completed_at := some now }
      else r),
   decide (0 < db.countP (fun r => decide (cancellable execution_id r))))

/-! ## Concrete rows used by witnesses and counterexamples -/

/-- A task execution row as `client.enqueue_execution` creates it
(defaults: priority 5, max_retries 3, attempt 0, nothing claimed), with
the given id and status. -/
def sampleExecution (id : String) (status : ExecutionStatus) : Execution :=
  { id := id, type := .task, function_name := "task_fn", queue := "default",
    status := status, priority := 5, args := "[]", kwargs := "",
    result := none, error := none, attempt := 0, max_retries := 3,
    parent_workflow_id := none, created_at := 0, claimed_at := none,
    completed_at := none, timeout_seconds := none, worker_id := none,
    checkpoint := none }

/-! ## Claim theorems -/

/-- Claim C9: calling the workflow-context API functions `wait_for_signal`,
`get_version` or `is_replaying` when no current workflow execution context
is set raises `RuntimeError`, and no workflow state is modified (the
context variable is left unset, and no store or context value is
produced). -/
theorem contextApi_without_context_raises (signal_name change_id : String)
    (timeout : Option Int) (min_version max_version : Int) :
    waitForSignalApi none signal_name timeout
      = (none, .runtimeError "wait_for_signal() can only be called from within a workflow")
    ∧ getVersionApi none change_id min_version max_version
      = (none, .runtimeError "get_version() can only be called from within a workflow")
    ∧ isReplayingApi none
      = (none, .runtimeError "is_replaying() can only be called from within a workflow") :=
  ⟨rfl, rfl, rfl⟩

/-- Claim C8: the first (live) evaluation of
`version(change_id, min, max)` — the cursor having run past the recorded
history — returns `max` and appends a `version{change_id, max}` event to
the workflow's history, and every subsequent (replay) evaluation of the
same change point returns the value recorded in history, whatever the
current `max` is. -/
theorem getVersion_live_records_max_and_replay_returns_recorded
    (ctx : WorkflowExecutionContext) (change_id : String)
    (min_version max_version : Int) :
    (ctx.history.length ≤ ctx.current_step_index →
      getVersion ctx change_id min_version max_version =
        .ok { ctx with
              history := ctx.history ++ [.version change_id max_version]
              current_step_index := ctx.current_step_index + 1 } max_version)
    ∧ (∀ v : Int,
        ctx.history[ctx.current_step_index]? = some (.version change_id v) →
        getVersion ctx change_id min_version max_version =
          .ok { ctx with current_step_index := ctx.current_step_index + 1 } v) := by
  constructor
  · intro h
    simp [getVersion, getNextHistoryEvent, List.getElem?_eq_none h]
  · intro v h
    simp [getVersion, getNextHistoryEvent, h]

/-- Claim C8 witness: a fresh context adopts the current max (2) and
records it; a context whose history already records version 2 at the
change point keeps returning 2 even after the code's max moves to 3. -/
theorem getVersion_live_records_max_and_replay_returns_recorded_witness :
    getVersion ⟨"wf_v", [], 0, false, []⟩ "change_1" 1 2
      = .ok ⟨"wf_v", [.version "change_1" 2], 1, false, []⟩ 2
    ∧ getVersion ⟨"wf_v", [.version "change_1" 2], 0, true, []⟩ "change_1" 1 3
      = .ok ⟨"wf_v", [.version "change_1" 2], 1, true, []⟩ 2 := by
  constructor
  · exact (getVersion_live_records_max_and_replay_returns_recorded
      ⟨"wf_v", [], 0, false, []⟩ "change_1" 1 2).1 (by decide)
  · exact (getVersion_live_records_max_and_replay_returns_recorded
      ⟨"wf_v", [.version "change_1" 2], 0, true, []⟩ "change_1" 1 3).2 2 (by decide)

/-- Claim C10: `cancel_execution(id)` fails the row (cancellation error,
`completed_at` set) and reports `true` exactly when a row with that id is
`pending` or `suspended`; rows in any other status, and all other rows,
are left entirely unchanged, and when nothing matches the table is
untouched and the call reports `false`. -/
theorem cancelExecution_spec (db : List Execution) (execution_id : String)
    (now : Int) :
    (∀ r ∈ db, cancellable execution_id r →
      { r with status := ExecutionStatus.failed, error := some cancellationError,
               completed_at := some now } ∈ (cancelExecution db execution_id now).1)
    ∧ (∀ r ∈ db, ¬ cancellable execution_id r →
        r ∈ (cancelExecution db execution_id now).1)
    ∧ ((cancelExecution db execution_id now).2 = true ↔
        ∃ r ∈ db, cancellable execution_id r)
    ∧ ((∀ r ∈ db, ¬ cancellable execution_id r) →
        (cancelExecution db execution_id now).1 = db) := by
  refine ⟨?_, ?_, ?_, ?_⟩
  · intro r hr hc
    have : (fun r =>
        if cancellable execution_id r then
          { r with status := ExecutionStatus.failed, error := some cancellationError,
                   completed_at := some now }
        else r) r
        = { r with status := ExecutionStatus.failed, error := some cancellationError,
                   completed_at := some now } := by
      simp [hc]
    exact this ▸ List.mem_map_of_mem _ hr
  · intro r hr hc
    have : (fun r =>
        if cancellable execution_id r then
          { r with status := ExecutionStatus.failed, error := some cancellationError,
                   completed_at := some now }
        else r) r = r := by
      simp [hc]
    exact this ▸ List.mem_map_of_mem _ hr
  · simp only [cancelExecution, decide_eq_true_eq, List.countP_pos_iff]
  · intro h
    have : ∀ r ∈ db, (fun r =>
        if cancellable execution_id r then
          { r with status := ExecutionStatus.failed, error := some cancellationError,
                   completed_at := some now }
        else r) r = id r := by
      intro r hr
      simp [h r hr]
    simpa using (List.map_congr_left this).trans (List.map_id db)

/-- Claim C10 witness: a pending row is cancelled (row failed with the
cancellation error, `true` returned) while a completed row is untouched
and the call reports `false`. -/
theorem cancelExecution_spec_witness :
    cancellable "exec_p"
      { sampleExecution "exec_p" ExecutionStatus.pending with attempt := 0 }
    ∧ { { sampleExecution "exec_p" ExecutionStatus.pending with attempt := 0 } with
        status := ExecutionStatus.failed, error := some cancellationError,
        completed_at := some (7 : Int) }
      ∈ (cancelExecution
          [{ sampleExecution "exec_p" ExecutionStatus.pending with attempt := 0 }]
          "exec_p" 7).1 := by
  refine ⟨by decide, ?_⟩
  exact (cancelExecution_spec
    [{ sampleExecution "exec_p" ExecutionStatus.pending with attempt := 0 }]
    "exec_p" 7).1 _ (by simp) (by decide)

/-- Claim C7: a claim selects at most `limit` rows (the source's
`_claim_execution` issues the same statement with `LIMIT 1`) with
`status = pending` and a queue in the worker's queue set, in
`(priority DESC, created_at ASC)` order, marks each selected row
`running` with `claimed_by = worker_id` and `claimed_at = now`, and when
no claimable pending row exists it returns an empty batch — and leaves
the table untouched — rather than blocking. -/
theorem claimBatch_spec (db : List Execution) (queues : List String)
    (wid : String) (now : Int) (limit : Nat) :
    (claimBatch db queues wid now limit).1.length ≤ limit
    ∧ (∀ c ∈ (claimBatch db queues wid now limit).1,
        c.status = ExecutionStatus.running ∧ c.worker_id = some wid ∧
        c.claimed_at = some now)
    ∧ (∀ c ∈ (claimBatch db queues wid now limit).1,
        ∃ e ∈ db, e.status = ExecutionStatus.pending ∧ e.queue ∈ queues ∧
          c = claimMark wid now e)
    ∧ List.Sorted dispatchLE (claimBatch db queues wid now limit).1
    ∧ ((∀ e ∈ db, ¬ (e.status = ExecutionStatus.pending ∧ e.queue ∈ queues)) →
        (claimBatch db queues wid now limit).1 = []
        ∧ (claimBatch db queues wid now limit).2 = db) := by
  refine ⟨?_, ?_, ?_, ?_, ?_⟩
  · simp [claimBatch]
  · intro c hc
    simp only [claimBatch, List.mem_map] at hc
    obtain ⟨e, _, rfl⟩ := hc
    exact ⟨rfl, rfl, rfl⟩
  · intro c hc
    simp only [claimBatch, List.mem_map] at hc
    obtain ⟨e, he, rfl⟩ := hc
    have he' : e ∈ (db.filter (fun e =>
        decide (e.status = ExecutionStatus.pending ∧ e.queue ∈ queues))).insertionSort
        dispatchLE :=
      List.take_subset limit _ he
    rw [List.mem_insertionSort] at he'
    rw [List.mem_filter] at he'
    obtain ⟨hdb, hcond⟩ := he'
    rw [decide_eq_true_eq] at hcond
    exact ⟨e, hdb, hcond.1, hcond.2, rfl⟩
  · have hsorted : List.Sorted dispatchLE
        (((db.filter (fun e =>
          decide (e.status = ExecutionStatus.pending ∧ e.queue ∈ queues))).insertionSort
          dispatchLE).take limit) :=
      (List.sorted_insertionSort dispatchLE _).sublist (List.take_sublist limit _)
    simp only [claimBatch, List.Sorted, List.pairwise_map]
    exact hsorted.imp (fun hab => hab)
  · intro h
    have hfilter : db.filter (fun e =>
        decide (e.status = ExecutionStatus.pending ∧ e.queue ∈ queues)) = [] := by
      rw [List.filter_eq_nil_iff]
      intro e he
      simpa using h e he
    constructor
    · simp only [claimBatch]
      rw [hfilter]
      simp [List.insertionSort]
    · simp only [claimBatch]
      rw [hfilter]
      have : ∀ e ∈ db, (if e.id ∈
          ((((List.nil : List Execution).insertionSort dispatchLE).take limit).map
            (·.id)) then claimMark wid now e else e) = id e := by
        intro e _
        simp [List.insertionSort]
      exact (List.map_congr_left this).trans (List.map_id db)

/-- Claim C7 witness: with one pending row on the worker's queue, the
claim returns that row marked running for the worker, and with no
pending rows the batch is empty and the table unchanged. -/
theorem claimBatch_spec_witness :
    (∀ c ∈ (claimBatch [sampleExecution "exec_c" ExecutionStatus.pending]
        ["default"] "w1" 4 1).1,
      c.status = ExecutionStatus.running ∧ c.worker_id = some "w1" ∧
      c.claimed_at = some (4 : Int))
    ∧ ((claimBatch [sampleExecution "exec_d" ExecutionStatus.completed]
        ["default"] "w1" 4 1).1 = []
      ∧ (claimBatch [sampleExecution "exec_d" ExecutionStatus.completed]
        ["default"] "w1" 4 1).2 = [sampleExecution "exec_d" ExecutionStatus.completed]) := by
  constructor
  · exact (claimBatch_spec [sampleExecution "exec_c" ExecutionStatus.pending]
      ["default"] "w1" 4 1).2.1
  · exact (claimBatch_spec [sampleExecution "exec_d" ExecutionStatus.completed]
      ["default"] "w1" 4 1).2.2.2.2 (by decide)

/-- Claim C4 counterexample: the completion UPDATE in
`Worker._complete_execution` carries no guard on the row's current
status, so completing an execution whose row is already `failed` does not
raise `IllegalTransition` and does not leave the row unchanged — the
failed row is overwritten to `completed`. -/
theorem completeExecution_overwrites_failed_row :
    completeExecution [sampleExecution "exec_f" ExecutionStatus.failed]
        (sampleExecution "exec_f" ExecutionStatus.failed) "output_1" 10
      ≠ [sampleExecution "exec_f" ExecutionStatus.failed]
    ∧ (completeExecution [sampleExecution "exec_f" ExecutionStatus.failed]
        (sampleExecution "exec_f" ExecutionStatus.failed) "output_1" 10).map (·.status)
      = [ExecutionStatus.completed] := by
  constructor
  · decide
  · decide

/-- Claim C4 (amended): completing an execution unconditionally sets the
matching row to `completed` with the result, `completed_at = now` and the
claim cleared, whatever its prior status — a row in another terminal
state (for example `failed`) is overwritten rather than triggering an
`IllegalTransition`; all other rows are untouched; and re-completing a
row already `completed` with identical output (and the same completion
time) is a no-op. -/
theorem completeExecution_unconditional (db : List Execution) (ex : Execution)
    (out : String) (now : Int) (h : ex.parent_workflow_id = none) :
    (∀ r ∈ db, r.id = ex.id →
      completeRow out now r ∈ completeExecution db ex out now)
    ∧ (∀ r ∈ db, r.id ≠ ex.id → r ∈ completeExecution db ex out now)
    ∧ (∀ r ∈ db, r.id = ex.id → r.status = ExecutionStatus.completed →
        r.result = some out → r.completed_at = some now → r.worker_id = none →
        r ∈ completeExecution db ex out now) := by
  have hmap : completeExecution db ex out now
      = db.map (fun r => if r.id = ex.id then completeRow out now r else r) := by
    simp [completeExecution, h]
  refine ⟨?_, ?_, ?_⟩
  · intro r hr hid
    rw [hmap]
    have : (fun r => if r.id = ex.id then completeRow out now r else r) r
        = completeRow out now r := by simp [hid]
    exact this ▸ List.mem_map_of_mem _ hr
  · intro r hr hid
    rw [hmap]
    have : (fun r => if r.id = ex.id then completeRow out now r else r) r = r := by
      simp [hid]
    exact this ▸ List.mem_map_of_mem _ hr
  · intro r hr hid hst hres hca hw
    rw [hmap]
    have hfix : completeRow out now r = r := by
      cases r
      simp only [completeRow]
      simp_all
    have : (fun r => if r.id = ex.id then completeRow out now r else r) r = r := by
      simp [hid, hfix]
    exact this ▸ List.mem_map_of_mem _ hr

/-- Claim C4 witness: completing a running row puts its completed image
in the table, and re-completing the already-completed image at the same
output and time leaves it present unchanged. -/
theorem completeExecution_unconditional_witness :
    completeRow "output_1" 10 (sampleExecution "exec_r" ExecutionStatus.running)
      ∈ completeExecution [sampleExecution "exec_r" ExecutionStatus.running]
        (sampleExecution "exec_r" ExecutionStatus.running) "output_1" 10
    ∧ completeRow "output_1" 10 (sampleExecution "exec_r" ExecutionStatus.running)
      ∈ completeExecution [completeRow "output_1" 10 (sampleExecution "exec_r" ExecutionStatus.running)]
        (sampleExecution "exec_r" ExecutionStatus.running) "output_1" 10 := by
  constructor
  · exact (completeExecution_unconditional
      [sampleExecution "exec_r" ExecutionStatus.running]
      (sampleExecution "exec_r" ExecutionStatus.running) "output_1" 10 rfl).1
      _ (by simp) rfl
  · exact (completeExecution_unconditional
      [completeRow "output_1" 10 (sampleExecution "exec_r" ExecutionStatus.running)]
      (sampleExecution "exec_r" ExecutionStatus.running) "output_1" 10 rfl).2.2
      _ (by simp) rfl rfl rfl rfl rfl

/-- The error record a task raising `Transient` on every attempt
produces in the worker's failure path. -/
def transientError : ErrorData := ⟨"always fails", "Transient", some "trace"⟩

/-- Claim C3 counterexample: a task with `max_retries = 3` whose function
raises `Transient` on every attempt ends `failed` after the worker's
three rounds — but with stored `attempt = 2`, not `3`: the final UPDATE
of `_handle_execution_failure` does not write the incremented attempt. -/
theorem retryExhaustion_attempt_not_three :
    (retryRound (retryRound (retryRound
        (sampleExecution "task_t" ExecutionStatus.pending)
        "w1" 1 2 transientError) "w2" 3 4 transientError)
        "w3" 5 6 transientError).status = ExecutionStatus.failed
    ∧ (retryRound (retryRound (retryRound
        (sampleExecution "task_t" ExecutionStatus.pending)
        "w1" 1 2 transientError) "w2" 3 4 transientError)
        "w3" 5 6 transientError).attempt ≠ 3 := by
  constructor
  · decide
  · decide

/-- Claim C3 (amended): for every task execution with `max_retries = 3`
whose function raises a `Transient` error on every attempt, each of the
first two failures returns the row to `pending` with the claim cleared
and the attempt incremented (the row is immediately claimable: a retry
delay is computed but the UPDATE carries no deferral), and the third
failure leaves `status = failed`, stored `attempt = 2` (the final
increment is not persisted), the `Transient` error recorded, and output
null. -/
theorem retryExhaustion_spec (r : Execution) (err : ErrorData)
    (w1 w2 w3 : String) (t1 t1' t2 t2' t3 t3' : Int)
    (hA : r.attempt = 0) (hM : r.max_retries = 3) (hR : r.result = none)
    (hT : err.type = "Transient") :
    (retryRound r w1 t1 t1' err).status = ExecutionStatus.pending
    ∧ (retryRound r w1 t1 t1' err).worker_id = none
    ∧ (retryRound r w1 t1 t1' err).claimed_at = none
    ∧ (retryRound r w1 t1 t1' err).attempt = 1
    ∧ (retryRound (retryRound r w1 t1 t1' err) w2 t2 t2' err).status
        = ExecutionStatus.pending
    ∧ (retryRound (retryRound r w1 t1 t1' err) w2 t2 t2' err).worker_id = none
    ∧ (retryRound (retryRound r w1 t1 t1' err) w2 t2 t2' err).claimed_at = none
    ∧ (retryRound (retryRound r w1 t1 t1' err) w2 t2 t2' err).attempt = 2
    ∧ (retryRound (retryRound (retryRound r w1 t1 t1' err) w2 t2 t2' err)
        w3 t3 t3' err).status = ExecutionStatus.failed
    ∧ (retryRound (retryRound (retryRound r w1 t1 t1' err) w2 t2 t2' err)
        w3 t3 t3' err).attempt = 2
    ∧ (retryRound (retryRound (retryRound r w1 t1 t1' err) w2 t2 t2' err)
        w3 t3 t3' err).error = some err
    ∧ ((retryRound (retryRound (retryRound r w1 t1 t1' err) w2 t2 t2' err)
        w3 t3 t3' err).error.map (·.type)) = some "Transient"
    ∧ (retryRound (retryRound (retryRound r w1 t1 t1' err) w2 t2 t2' err)
        w3 t3 t3' err).result = none := by
  simp [retryRound, rowFail, claimMark, hA, hM, hR, hT]

/-- Claim C3 witness: the concrete always-`Transient` task with
`max_retries = 3` run through the three worker rounds. -/
theorem retryExhaustion_spec_witness :
    (retryRound (retryRound (retryRound
        (sampleExecution "task_w" ExecutionStatus.pending)
        "w1" 1 2 transientError) "w2" 3 4 transientError)
        "w3" 5 6 transientError).status = ExecutionStatus.failed
    ∧ (retryRound (retryRound (retryRound
        (sampleExecution "task_w" ExecutionStatus.pending)
        "w1" 1 2 transientError) "w2" 3 4 transientError)
        "w3" 5 6 transientError).attempt = 2 := by
  have h := retryExhaustion_spec (sampleExecution "task_w" ExecutionStatus.pending)
    transientError "w1" "w2" "w3" 1 2 3 4 5 6 rfl rfl rfl rfl
  exact ⟨h.2.2.2.2.2.2.2.2.1, h.2.2.2.2.2.2.2.2.2.1⟩

/-- Does a recorded history event match an activity statement in kind
and function name?  The two assertions in
`WorkflowExecutionContext.execute_activity` check exactly this. -/
def activityEventMatches (function_name : String) : HistoryEvent → Prop
  | .activity name _ _ => name = function_name
  | _ => False

instance (function_name : String) (ev : HistoryEvent) :
    Decidable (activityEventMatches function_name ev) := by
  unfold activityEventMatches
  match ev with
  | .activity _ _ _ => infer_instance
  | .signal _ _ _ => infer_instance
  | .version _ _ => infer_instance

/-- The error record the worker builds when the replay assertion fails
(an `AssertionError`, not a distinct `NonDeterminism` kind). -/
def assertionMismatchError : ErrorData :=
  ⟨"History mismatch: expected activity", "AssertionError", some "trace"⟩

/-- Claim C1 counterexample: a replayed activity statement meeting a
recorded `signal` event raises the history-mismatch assertion, but the
workflow is NOT failed permanently: with `attempt = 0` and
`max_retries = 3` the worker's failure handling returns the claimed
execution to `pending` — it is retried, not `failed`. -/
theorem replay_mismatch_is_retried_counterexample :
    executeActivity ⟨"wf_m", [.signal "s" "p" "sig_0"], 0, true, []⟩
        "act_fn" "[]" "" ⟨none, none, none⟩ "act_1"
      = .mismatch ⟨"wf_m", [.signal "s" "p" "sig_0"], 1, true, []⟩
          "History mismatch: expected activity"
    ∧ (rowFail (claimMark "w1" 1 (sampleExecution "wf_mm" ExecutionStatus.pending))
        assertionMismatchError 2).status = ExecutionStatus.pending
    ∧ (rowFail (claimMark "w1" 1 (sampleExecution "wf_mm" ExecutionStatus.pending))
        assertionMismatchError 2).status ≠ ExecutionStatus.failed := by
  refine ⟨rfl, by decide, by decide⟩

/-- Claim C1 (amended): during replay, a recorded event at the cursor
that does not match the activity statement in kind or function name
makes `execute_activity` raise a history-mismatch assertion error; the
worker handles that error like any other failure — the execution returns
to `pending` (with the attempt incremented) while `attempt + 1` is below
`max_retries`, and transitions to `failed` only once retries are
exhausted.  It is not a permanent never-retried failure. -/
theorem replay_mismatch_is_retried (ctx : WorkflowExecutionContext)
    (function_name args kwargs : String) (config : ActivityConfig)
    (fresh_id : String) (event : HistoryEvent) (r : Execution)
    (err : ErrorData) (now : Int)
    (hev : ctx.history[ctx.current_step_index]? = some event)
    (hnm : ¬ activityEventMatches function_name event) :
    (∃ ctx' message,
      executeActivity ctx function_name args kwargs config fresh_id
        = .mismatch ctx' message)
    ∧ (r.attempt + 1 < r.max_retries →
        (rowFail r err now).status = ExecutionStatus.pending
        ∧ (rowFail r err now).attempt = r.attempt + 1)
    ∧ (r.max_retries ≤ r.attempt + 1 →
        (rowFail r err now).status = ExecutionStatus.failed
        ∧ (rowFail r err now).error = some err) := by
  refine ⟨?_, ?_, ?_⟩
  · match hm : event with
    | .activity name result aid =>
      have hne : ¬ name = function_name := by
        simpa [activityEventMatches] using hnm
      refine ⟨{ ctx with current_step_index := ctx.current_step_index + 1 },
        "History mismatch: expected " ++ function_name ++ ", got " ++ name, ?_⟩
      simp [executeActivity, getNextHistoryEvent, hev, hne]
    | .signal sn sp sid =>
      refine ⟨{ ctx with current_step_index := ctx.current_step_index + 1 },
        "History mismatch: expected activity", ?_⟩
      simp [executeActivity, getNextHistoryEvent, hev]
    | .version cid v =>
      refine ⟨{ ctx with current_step_index := ctx.current_step_index + 1 },
        "History mismatch: expected activity", ?_⟩
      simp [executeActivity, getNextHistoryEvent, hev]
  · intro hlt
    simp [rowFail, hlt]
  · intro hge
    simp [rowFail, Nat.not_lt.mpr hge]

/-- Claim C1 witness: the mismatch at a recorded signal event, and the
two failure-handling branches at concrete attempt counts. -/
theorem replay_mismatch_is_retried_witness :
    (∃ ctx' message,
      executeActivity ⟨"wf_m2", [.signal "s" "p" "sig_0"], 0, true, []⟩
          "act_fn" "[]" "" ⟨none, none, none⟩ "act_1"
        = .mismatch ctx' message)
    ∧ ((rowFail (sampleExecution "wf_m3" ExecutionStatus.running)
        assertionMismatchError 2).status = ExecutionStatus.pending
      ∧ (rowFail (sampleExecution "wf_m3" ExecutionStatus.running)
        assertionMismatchError 2).attempt
          = (sampleExecution "wf_m3" ExecutionStatus.running).attempt + 1) := by
  have h := replay_mismatch_is_retried
    ⟨"wf_m2", [.signal "s" "p" "sig_0"], 0, true, []⟩
    "act_fn" "[]" "" ⟨none, none, none⟩ "act_1"
    (.signal "s" "p" "sig_0")
    (sampleExecution "wf_m3" ExecutionStatus.running)
    assertionMismatchError 2 (by decide) (by decide)
  exact ⟨h.1, h.2.1 (by decide)⟩

/-- Claim C6 counterexample: a task whose function name is absent from
the registry fails lookup with `ValueError`, but the worker does not
treat this as permanent: with `attempt = 0` and `max_retries = 3` the
execution returns to `pending` for retry instead of transitioning
directly to `failed`. -/
theorem unknownFunction_is_retried_counterexample :
    (get_function [] "missing_fn").isOk = false
    ∧ (rowFail (claimMark "w1" 1
        { sampleExecution "task_u" ExecutionStatus.pending with
          function_name := "missing_fn" })
        ⟨"Function missing_fn not found in registry. Did you import it?",
         "ValueError", some "trace"⟩ 2).status = ExecutionStatus.pending
    ∧ (rowFail (claimMark "w1" 1
        { sampleExecution "task_u" ExecutionStatus.pending with
          function_name := "missing_fn" })
        ⟨"Function missing_fn not found in registry. Did you import it?",
         "ValueError", some "trace"⟩ 2).status ≠ ExecutionStatus.failed := by
  refine ⟨rfl, by decide, by decide⟩

/-- Claim C6 (amended): for every execution whose `function_name` is not
registered, `get_function` raises `ValueError`, and the worker handles it
like any other failure: the execution is returned to `pending` while
`attempt + 1 < max_retries`, and transitions to `failed` (error and
`completed_at` recorded) only when retries are exhausted — not
unconditionally. -/
theorem unknownFunction_is_retried (registry : List String) (name : String)
    (r : Execution) (err : ErrorData) (now : Int)
    (h : name ∉ registry) :
    get_function registry name
      = .error ("Function " ++ name ++ " not found in registry. Did you import it?")
    ∧ (r.attempt + 1 < r.max_retries →
        (rowFail r err now).status = ExecutionStatus.pending)
    ∧ (r.max_retries ≤ r.attempt + 1 →
        (rowFail r err now).status = ExecutionStatus.failed
        ∧ (rowFail r err now).error = some err
        ∧ (rowFail r err now).completed_at = some now) := by
  refine ⟨?_, ?_, ?_⟩
  · simp [get_function, h]
  · intro hlt
    simp [rowFail, hlt]
  · intro hge
    simp [rowFail, Nat.not_lt.mpr hge]

/-- Claim C6 witness: the missing name raises, and at `attempt = 2`,
`max_retries = 3` the failure is final. -/
theorem unknownFunction_is_retried_witness :
    get_function [] "missing_fn"
      = .error "Function missing_fn not found in registry. Did you import it?"
    ∧ ((rowFail { sampleExecution "task_u2" ExecutionStatus.running with attempt := 2 }
        transientError 9).status = ExecutionStatus.failed
      ∧ (rowFail { sampleExecution "task_u2" ExecutionStatus.running with attempt := 2 }
        transientError 9).error = some transientError
      ∧ (rowFail { sampleExecution "task_u2" ExecutionStatus.running with attempt := 2 }
        transientError 9).completed_at = some (9 : Int)) := by
  have h := unknownFunction_is_retried [] "missing_fn"
    { sampleExecution "task_u2" ExecutionStatus.running with attempt := 2 }
    transientError 9 (by decide)
  exact ⟨h.1, h.2.2 (by decide)⟩

theorem claimedByOneOf_nil (wid : Option String) : ¬ claimedByOneOf [] wid := by
  cases wid <;> simp [claimedByOneOf]

theorem claimedByOneOf_none (dead : List String) : ¬ claimedByOneOf dead none := by
  simp [claimedByOneOf]

/-- The dead heartbeat, suspended row and store of the C5
counterexample: worker `w_dead` is `running` with a stale heartbeat, and
a suspended workflow row still carries `worker_id = w_dead`. -/
def deadHeartbeatC5 : WorkerHeartbeat := ⟨"w_dead", 0, ["default"], .running⟩

def suspendedRowC5 : Execution :=
  { sampleExecution "wf_s" ExecutionStatus.suspended with
    type := .workflow, worker_id := some "w_dead" }

def storeC5 : Store := ⟨[suspendedRowC5], [], [deadHeartbeatC5]⟩

/-- Claim C5 counterexample: the recovery UPDATE resets executions with
`status IN ('running', 'suspended')`, not only `running` ones — a
`suspended` execution claimed by a dead worker is NOT left unchanged: it
is reset to `pending` with the claim cleared. -/
theorem recoverDead_resets_suspended_counterexample :
    (recoverDeadWorkerExecutions storeC5 100 50).executions
      = [recoverRow suspendedRowC5]
    ∧ recoverRow suspendedRowC5 ≠ suspendedRowC5
    ∧ (recoverDeadWorkerExecutions storeC5 100 50).executions.map (·.status)
      = [ExecutionStatus.pending] := by
  refine ⟨by decide, by decide, by decide⟩

/-- Claim C5 (amended): `recover_dead` marks every worker whose heartbeat
row is `running` with `last_heartbeat` older than the timeout as
`stopped`, and resets exactly those executions with status `running` OR
`suspended` and `claimed_by` among the dead workers to `pending` with the
claim cleared; every other execution — not claimed by a dead worker, or
in any other status — is left unchanged; and afterwards no execution
remains `running` (or `suspended`) with `claimed_by` referring to a
worker stopped by this call. -/
theorem recoverDead_spec (st : Store) (now heartbeat_timeout : Int) :
    (∀ w ∈ st.worker_heartbeats,
        w.status = WorkerStatus.running → w.last_heartbeat < now - heartbeat_timeout →
        { w with status := WorkerStatus.stopped }
          ∈ (recoverDeadWorkerExecutions st now heartbeat_timeout).worker_heartbeats)
    ∧ (∀ e ∈ st.executions,
        claimedByOneOf (deadWorkerIds st.worker_heartbeats now heartbeat_timeout)
          e.worker_id →
        (e.status = ExecutionStatus.running ∨ e.status = ExecutionStatus.suspended) →
        recoverRow e ∈ (recoverDeadWorkerExecutions st now heartbeat_timeout).executions)
    ∧ (∀ e ∈ st.executions,
        ¬ (claimedByOneOf (deadWorkerIds st.worker_heartbeats now heartbeat_timeout)
              e.worker_id
            ∧ (e.status = ExecutionStatus.running ∨ e.status = ExecutionStatus.suspended)) →
        e ∈ (recoverDeadWorkerExecutions st now heartbeat_timeout).executions)
    ∧ (∀ e ∈ (recoverDeadWorkerExecutions st now heartbeat_timeout).executions,
        claimedByOneOf (deadWorkerIds st.worker_heartbeats now heartbeat_timeout)
          e.worker_id →
        e.status ≠ ExecutionStatus.running ∧ e.status ≠ ExecutionStatus.suspended) := by
  by_cases hempty : (deadWorkerIds st.worker_heartbeats now heartbeat_timeout).isEmpty = true
  · have hnil : deadWorkerIds st.worker_heartbeats now heartbeat_timeout = [] := by
      simpa using hempty
    have hid : recoverDeadWorkerExecutions st now heartbeat_timeout = st := by
      simp [recoverDeadWorkerExecutions, hempty]
    refine ⟨?_, ?_, ?_, ?_⟩
    · intro w hw hrun hlt
      exfalso
      have : w.worker_id ∈ deadWorkerIds st.worker_heartbeats now heartbeat_timeout :=
        List.mem_map_of_mem _ (List.mem_filter.mpr ⟨hw, by simp [hrun, hlt]⟩)
      rw [hnil] at this
      exact (List.not_mem_nil _) this
    · intro e _ hcl _
      exact absurd hcl (hnil ▸ claimedByOneOf_nil e.worker_id)
    · intro e he _
      rw [hid]
      exact he
    · intro e _ hcl
      exact absurd hcl (hnil ▸ claimedByOneOf_nil e.worker_id)
  · have hheart : (recoverDeadWorkerExecutions st now heartbeat_timeout).worker_heartbeats
        = st.worker_heartbeats.map (fun w =>
            if w.worker_id ∈ deadWorkerIds st.worker_heartbeats now heartbeat_timeout
            then { w with status := WorkerStatus.stopped } else w) := by
      simp [recoverDeadWorkerExecutions, hempty]
    have hexec : (recoverDeadWorkerExecutions st now heartbeat_timeout).executions
        = st.executions.map (fun e =>
            if claimedByOneOf (deadWorkerIds st.worker_heartbeats now heartbeat_timeout)
                  e.worker_id
                ∧ (e.status = ExecutionStatus.running ∨ e.status = ExecutionStatus.suspended)
            then recoverRow e else e) := by
      simp [recoverDeadWorkerExecutions, hempty]
    refine ⟨?_, ?_, ?_, ?_⟩
    · intro w hw hrun hlt
      rw [hheart]
      have hmem : w.worker_id ∈ deadWorkerIds st.worker_heartbeats now heartbeat_timeout :=
        List.mem_map_of_mem _ (List.mem_filter.mpr ⟨hw, by simp [hrun, hlt]⟩)
      have heq : (fun w =>
          if w.worker_id ∈ deadWorkerIds st.worker_heartbeats now heartbeat_timeout
          then { w with status := WorkerStatus.stopped } else w) w
          = { w with status := WorkerStatus.stopped } := by
        simp [hmem]
      exact heq ▸ List.mem_map_of_mem _ hw
    · intro e he hcl hst
      rw [hexec]
      have heq : (fun e =>
          if claimedByOneOf (deadWorkerIds st.worker_heartbeats now heartbeat_timeout)
                e.worker_id
              ∧ (e.status = ExecutionStatus.running ∨ e.status = ExecutionStatus.suspended)
          then recoverRow e else e) e = recoverRow e := by
        show (if claimedByOneOf (deadWorkerIds st.worker_heartbeats now heartbeat_timeout)
                e.worker_id
              ∧ (e.status = ExecutionStatus.running ∨ e.status = ExecutionStatus.suspended)
          then recoverRow e else e) = recoverRow e
        rw [if_pos ⟨hcl, hst⟩]
      exact heq ▸ List.mem_map_of_mem _ he
    · intro e he hcond
      rw [hexec]
      have heq : (fun e =>
          if claimedByOneOf (deadWorkerIds st.worker_heartbeats now heartbeat_timeout)
                e.worker_id
              ∧ (e.status = ExecutionStatus.running ∨ e.status = ExecutionStatus.suspended)
          then recoverRow e else e) e = e := by
        show (if claimedByOneOf (deadWorkerIds st.worker_heartbeats now heartbeat_timeout)
                e.worker_id
              ∧ (e.status = ExecutionStatus.running ∨ e.status = ExecutionStatus.suspended)
          then recoverRow e else e) = e
        rw [if_neg hcond]
      exact heq ▸ List.mem_map_of_mem _ he
    · intro e' he' hcl
      rw [hexec] at he'
      obtain ⟨e, _, rfl⟩ := List.mem_map.mp he'
      by_cases hcond : claimedByOneOf
            (deadWorkerIds st.worker_heartbeats now heartbeat_timeout) e.worker_id
          ∧ (e.status = ExecutionStatus.running ∨ e.status = ExecutionStatus.suspended)
      · replace hcl : claimedByOneOf
            (deadWorkerIds st.worker_heartbeats now heartbeat_timeout)
            ((if claimedByOneOf
                  (deadWorkerIds st.worker_heartbeats now heartbeat_timeout) e.worker_id
                ∧ (e.status = ExecutionStatus.running
                    ∨ e.status = ExecutionStatus.suspended)
              then recoverRow e else e).worker_id) := hcl
        rw [if_pos hcond] at hcl
        exact absurd hcl (claimedByOneOf_none _)
      · replace hcl : claimedByOneOf
            (deadWorkerIds st.worker_heartbeats now heartbeat_timeout)
            ((if claimedByOneOf
                  (deadWorkerIds st.worker_heartbeats now heartbeat_timeout) e.worker_id
                ∧ (e.status = ExecutionStatus.running
                    ∨ e.status = ExecutionStatus.suspended)
              then recoverRow e else e).worker_id) := hcl
        rw [if_neg hcond] at hcl
        show (if claimedByOneOf
                  (deadWorkerIds st.worker_heartbeats now heartbeat_timeout) e.worker_id
                ∧ (e.status = ExecutionStatus.running
                    ∨ e.status = ExecutionStatus.suspended)
              then recoverRow e else e).status ≠ ExecutionStatus.running
          ∧ (if claimedByOneOf
                  (deadWorkerIds st.worker_heartbeats now heartbeat_timeout) e.worker_id
                ∧ (e.status = ExecutionStatus.running
                    ∨ e.status = ExecutionStatus.suspended)
              then recoverRow e else e).status ≠ ExecutionStatus.suspended
        rw [if_neg hcond]
        constructor
        · intro hr
          exact hcond ⟨hcl, Or.inl hr⟩
        · intro hs
          exact hcond ⟨hcl, Or.inr hs⟩

/-- The workflow row of the C2 counterexample: still `running`, its wait
not yet reached (no checkpoint). -/
def wfRowC2 : Execution :=
  { sampleExecution "wf_live" ExecutionStatus.running with
    type := .workflow, worker_id := some "w1" }

def storeC2 : Store := ⟨[wfRowC2], [], []⟩

/-- The store after `send_signal` fires while the workflow is still
running, before its `wait_signal` is recorded. -/
def storeC2AfterSend : Store :=
  sendSignal storeC2 "wf_live" "approval" "payload_1" "sig_1"

/-- The context the workflow carries once it reaches the wait live. -/
def ctxC2Suspended : WorkflowExecutionContext :=
  ⟨"wf_live", [], 0, false, [.wait_signal "approval" none]⟩

/-- The store after the workflow then suspends at the wait. -/
def storeC2Final : Store :=
  handleWorkflowSuspend storeC2AfterSend wfRowC2 ctxC2Suspended
    [.wait_signal "approval" none] 3 5

/-- Claim C2 counterexample: a signal sent before the workflow reaches
its `wait_signal` is lost.  The send finds no matching pending wait, so
it only stores the signal; when the workflow then reaches the wait it
suspends — nothing drains the stored unconsumed signal on entry, the
history gains no `signal` event, and the payload is never delivered. -/
theorem sendSignal_before_wait_is_lost_counterexample :
    waitForSignal (WorkflowExecutionContext.init "wf_live" none) "approval" none
      = .suspend ctxC2Suspended [.wait_signal "approval" none]
    ∧ storeC2Final.executions.map (·.status) = [ExecutionStatus.suspended]
    ∧ storeC2Final.executions.map (·.checkpoint)
      = [some ⟨[], [.wait_signal "approval" none]⟩]
    ∧ storeC2Final.workflow_signals
      = [⟨"sig_1", "wf_live", "approval", "payload_1", false⟩] := by
  refine ⟨rfl, by decide, by decide, by decide⟩

/-- Claim C2 (amended): a signal sent while the workflow is suspended at
a matching `wait_signal` is delivered exactly once — the workflow row
returns to `pending`, its history gains precisely one new `signal` event
carrying the payload (pending commands cleared), the stored signal is
marked consumed, other executions are untouched, and the subsequent
replay of `wait_signal` at the recorded position returns the payload.
A signal sent before the workflow reaches the wait is not drained on
entry to `wait_signal` and is never delivered (see the counterexample);
delivery holds only for the send-after-suspend ordering. -/
theorem sendSignal_suspended_delivers_exactly_once
    (st : Store) (wf : Execution)
    (workflow_id signal_name payload signal_id : String)
    (hfind : st.executions.find? (fun e =>
        decide (e.id = workflow_id ∧ e.type = ExecutionType.workflow)) = some wf)
    (hsusp : wf.status = ExecutionStatus.suspended)
    (hwait : (wf.checkpoint.getD Checkpoint.empty).pending_commands.any
        (commandWaitsForSignal signal_name) = true) :
    (∀ e ∈ st.executions, e.id = workflow_id →
      { e with status := ExecutionStatus.pending,
               checkpoint := some ⟨(wf.checkpoint.getD Checkpoint.empty).history
                 ++ [.signal signal_name payload signal_id], []⟩ }
        ∈ (sendSignal st workflow_id signal_name payload signal_id).executions)
    ∧ (∀ e ∈ st.executions, e.id ≠ workflow_id →
        e ∈ (sendSignal st workflow_id signal_name payload signal_id).executions)
    ∧ (sendSignal st workflow_id signal_name payload signal_id).workflow_signals
      = st.workflow_signals.map (fun s : SignalRow =>
          if s.id = signal_id then { s with consumed := true } else s)
        ++ [⟨signal_id, workflow_id, signal_name, payload, true⟩]
    ∧ (∀ (replay_flag : Bool) (cmds : List Command) (timeout : Option Int),
        waitForSignal
          ⟨wf.id, (wf.checkpoint.getD Checkpoint.empty).history
              ++ [.signal signal_name payload signal_id],
            (wf.checkpoint.getD Checkpoint.empty).history.length, replay_flag, cmds⟩
          signal_name timeout
        = .replayed
            ⟨wf.id, (wf.checkpoint.getD Checkpoint.empty).history
                ++ [.signal signal_name payload signal_id],
              (wf.checkpoint.getD Checkpoint.empty).history.length + 1,
              replay_flag, cmds⟩
            payload) := by
  have hres : sendSignal st workflow_id signal_name payload signal_id
      = { executions := st.executions.map (fun e =>
            if e.id = workflow_id then
              { e with status := ExecutionStatus.pending,
                       checkpoint := some ⟨(wf.checkpoint.getD Checkpoint.empty).history
                         ++ [.signal signal_name payload signal_id], []⟩ }
            else e)
          workflow_signals := ((st.workflow_signals
              ++ [⟨signal_id, workflow_id, signal_name, payload, false⟩] :
                List SignalRow)).map (fun s : SignalRow =>
            if s.id = signal_id then { s with consumed := true } else s)
          worker_heartbeats := st.worker_heartbeats } := by
    simp only [sendSignal, hfind]
    rw [if_pos ⟨hwait, hsusp⟩]
  refine ⟨?_, ?_, ?_, ?_⟩
  · intro e he hid
    rw [hres]
    have heq : (fun e =>
        if e.id = workflow_id then
          { e with status := ExecutionStatus.pending,
                   checkpoint := some ⟨(wf.checkpoint.getD Checkpoint.empty).history
                     ++ [.signal signal_name payload signal_id], []⟩ }
        else e) e
        = { e with status := ExecutionStatus.pending,
                   checkpoint := some ⟨(wf.checkpoint.getD Checkpoint.empty).history
                     ++ [.signal signal_name payload signal_id], []⟩ } := by
      simp [hid]
    exact heq ▸ List.mem_map_of_mem _ he
  · intro e he hid
    rw [hres]
    have heq : (fun e =>
        if e.id = workflow_id then
          { e with status := ExecutionStatus.pending,
                   checkpoint := some ⟨(wf.checkpoint.getD Checkpoint.empty).history
                     ++ [.signal signal_name payload signal_id], []⟩ }
        else e) e = e := by
      simp [hid]
    exact heq ▸ List.mem_map_of_mem _ he
  · rw [hres]
    simp
  · intro replay_flag cmds timeout
    simp [waitForSignal, getNextHistoryEvent]

/-- The workflow row of the C2 witness: suspended at a recorded
`wait_signal` for `approval`. -/
def wfRowC2W : Execution :=
  { sampleExecution "wf_wait" ExecutionStatus.suspended with
    type := .workflow,
    checkpoint := some ⟨[], [.wait_signal "approval" none]⟩ }

def storeC2W : Store := ⟨[wfRowC2W], [], []⟩

/-- Claim C2 witness: sending `approval` to the workflow suspended at
the wait resumes it to `pending` with the signal event recorded once and
the signal row consumed. -/
theorem sendSignal_suspended_delivers_exactly_once_witness :
    { wfRowC2W with status := ExecutionStatus.pending,
                    checkpoint := some ⟨[.signal "approval" "payload_2" "sig_2"], []⟩ }
      ∈ (sendSignal storeC2W "wf_wait" "approval" "payload_2" "sig_2").executions
    ∧ (sendSignal storeC2W "wf_wait" "approval" "payload_2" "sig_2").workflow_signals
      = [⟨"sig_2", "wf_wait", "approval", "payload_2", true⟩] := by
  have h := sendSignal_suspended_delivers_exactly_once storeC2W wfRowC2W
    "wf_wait" "approval" "payload_2" "sig_2" (by decide) rfl (by decide)
  exact ⟨h.1 wfRowC2W (List.mem_singleton_self _) rfl, h.2.2.1⟩

end Rhythm
